import Mathlib

/-!
Verification of the data-generator page (`app.py`) of the
`ratios_data_generator` repository.

The program is embedded shallowly over exact rationals:

* Python floats are modelled as `ℚ` with exact arithmetic;
* the random source (`np.random.Generator`) is modelled by a `Draws`
  record holding the three values the sampler draws from it, together
  with the range facts NumPy guarantees for those draws;
* the Google-Sheets worksheet is modelled as an optional grid of cells
  (`Store`), with `open_ws` creating a header-only worksheet when the
  named worksheet does not exist, exactly as the code does;
* the Streamlit session state and the per-tick control flow are modelled
  by an explicit `AppState` threaded through `tickGenerate`.
-/

/-! ## Rounding

Python's built-in `round` rounds half to even (banker's rounding).
`rhe q` is that rounding of a rational to the nearest integer, and
`round2 x` is `round(x, 2)`: round `x * 100` half-to-even, divide by 100. -/

/-- Round half to even: nearest integer to `q`, ties going to the even one. -/
def rhe (q : ℚ) : ℤ :=
  if q - (⌊q⌋ : ℚ) < 1/2 then ⌊q⌋
  else if 1/2 < q - (⌊q⌋ : ℚ) then ⌊q⌋ + 1
  else if ⌊q⌋ % 2 = 0 then ⌊q⌋ else ⌊q⌋ + 1

/-- `round(x, 2)` from Python: round to 2 decimal places, half to even. -/
def round2 (x : ℚ) : ℚ := (rhe (x * 100) : ℚ) / 100

theorem rhe_eq_floor_or_add_one (q : ℚ) : rhe q = ⌊q⌋ ∨ rhe q = ⌊q⌋ + 1 := by
  unfold rhe
  split_ifs <;> simp

theorem floor_le_rhe (q : ℚ) : ⌊q⌋ ≤ rhe q := by
  rcases rhe_eq_floor_or_add_one q with h | h <;> omega

theorem rhe_le_floor_add_one (q : ℚ) : rhe q ≤ ⌊q⌋ + 1 := by
  rcases rhe_eq_floor_or_add_one q with h | h <;> omega

theorem le_rhe {n : ℤ} {q : ℚ} (h : (n : ℚ) ≤ q) : n ≤ rhe q :=
  le_trans (Int.le_floor.mpr h) (floor_le_rhe q)

theorem rhe_le {n : ℤ} {q : ℚ} (h : q ≤ (n : ℚ)) : rhe q ≤ n := by
  rcases eq_or_lt_of_le h with heq | hlt
  · subst heq
    norm_num [rhe, Int.floor_intCast]
  · have h1 : ⌊q⌋ < n := Int.floor_lt.mpr hlt
    have h2 := rhe_le_floor_add_one q
    omega

theorem rhe_mono {a b : ℚ} (hab : a ≤ b) : rhe a ≤ rhe b := by
  rcases lt_or_eq_of_le (Int.floor_mono hab) with hf | hf
  · have h1 := rhe_le_floor_add_one a
    have h2 := floor_le_rhe b
    omega
  · have hfr : a - (⌊a⌋ : ℚ) ≤ b - (⌊b⌋ : ℚ) := by
      rw [hf]
      linarith
    unfold rhe
    split_ifs <;> first | omega | (exfalso; linarith)

theorem round2_mono {a b : ℚ} (h : a ≤ b) : round2 a ≤ round2 b := by
  unfold round2
  have h1 : rhe (a * 100) ≤ rhe (b * 100) := by
    apply rhe_mono
    linarith
  have h2 : (rhe (a * 100) : ℚ) ≤ (rhe (b * 100) : ℚ) := by exact_mod_cast h1
  linarith

theorem le_round2 {n : ℤ} {x : ℚ} (h : (n : ℚ) / 100 ≤ x) :
    (n : ℚ) / 100 ≤ round2 x := by
  unfold round2
  have h1 : (n : ℚ) ≤ x * 100 := by linarith
  have h2 : (n : ℚ) ≤ (rhe (x * 100) : ℚ) := by exact_mod_cast le_rhe h1
  linarith

theorem round2_le {n : ℤ} {x : ℚ} (h : x ≤ (n : ℚ) / 100) :
    round2 x ≤ (n : ℚ) / 100 := by
  unfold round2
  have h1 : x * 100 ≤ (n : ℚ) := by linarith
  have h2 : (rhe (x * 100) : ℚ) ≤ (n : ℚ) := by exact_mod_cast rhe_le h1
  linarith

theorem round2_mul_hundred (x : ℚ) : round2 x * 100 = (rhe (x * 100) : ℚ) := by
  unfold round2
  field_simp

/-! ## The sampler: `generate_plausible_values`

The random source is modelled by the three values the code draws from it:
`rng.lognormal(mean=11.0, sigma=0.35)`, `rng.uniform(0.10, 0.60)` and
`rng.uniform(0.30, 1.10)`. `ValidDraws` records what NumPy guarantees of
those draws: a lognormal sample is positive and `uniform(lo, hi)` samples
the half-open interval from `lo` up to but excluding `hi`. -/

/-- One realisation of the random source: the three values drawn from
`rng` in `generate_plausible_values`, in program order. -/
structure Draws where
  lognormalDraw : ℚ
  invPropDraw : ℚ
  clPropDraw : ℚ
deriving DecidableEq

/-- The ranges NumPy guarantees for the three draws. -/
def ValidDraws (d : Draws) : Prop :=
  0 < d.lognormalDraw ∧
  0.10 ≤ d.invPropDraw ∧ d.invPropDraw < 0.60 ∧
  0.30 ≤ d.clPropDraw ∧ d.clPropDraw < 1.10

instance (d : Draws) : Decidable (ValidDraws d) := by
  unfold ValidDraws
  infer_instance

/-- `np.clip(x, lo, hi)`, i.e. `min(max(x, lo), hi)`. -/
def np_clip (x lo hi : ℚ) : ℚ := min (max x lo) hi

/-- The snapshot record returned by `generate_plausible_values`:
`timestamp_utc` plus the three monetary figures. -/
structure Record where
  timestamp_utc : String
  current_assets : ℚ
  current_liabilities : ℚ
  inventory : ℚ
deriving DecidableEq

/-- `ca` after the clip: `np.clip(rng.lognormal(...), 50_000, 250_000)`. -/
def clipped_ca (d : Draws) : ℚ := np_clip d.lognormalDraw 50000 250000

/-- `inv = inv_prop * ca`, before the final cap. -/
def pre_cap_inv (d : Draws) : ℚ := d.invPropDraw * clipped_ca d

/-- `inv = min(inv, ca)`: inventory after the final cap. -/
def capped_inv (d : Draws) : ℚ := min (pre_cap_inv d) (clipped_ca d)

/-- `cl = cl_prop * ca`, before the final floor. -/
def pre_floor_cl (d : Draws) : ℚ := d.clPropDraw * clipped_ca d

/-- `cl = max(cl, 1.0)`: liabilities after the final floor. -/
def floored_cl (d : Draws) : ℚ := max (pre_floor_cl d) 1

/-- `generate_plausible_values(rng)`: the returned dict, with the
timestamp string (`datetime.now(...)` formatted to seconds) passed in as
an opaque parameter `ts`. -/
def generate_plausible_values (ts : String) (d : Draws) : Record :=
  { timestamp_utc := ts
    current_assets := round2 (clipped_ca d)
    current_liabilities := round2 (floored_cl d)
    inventory := round2 (capped_inv d) }

theorem clipped_ca_lower (d : Draws) : (50000 : ℚ) ≤ clipped_ca d := by
  unfold clipped_ca np_clip
  apply le_min
  · exact le_max_right _ _
  · norm_num

theorem clipped_ca_upper (d : Draws) : clipped_ca d ≤ 250000 :=
  min_le_right _ _

/-! ## Timing gate

`INTERVAL_SECONDS = 30` (a Python `int`). The code's `due(now)` reads
`st.session_state.last_generate_ts` and the module constant; here both
become explicit parameters, as in the spec's
`isDue(now, lastGenerationTime, intervalSeconds)` contract. -/

def INTERVAL_SECONDS : ℤ := 30

/-- `due`: `(now - last_generate_ts) >= INTERVAL_SECONDS`, with the
session-state timestamp and the interval passed explicitly. -/
def due (now last_generate_ts interval : ℚ) : Bool :=
  decide (now - last_generate_ts ≥ interval)

/-! ## Worksheet store

The worksheet is a grid of cells; a cell holds either a string or a
number (gspread serialises both). `Store.ws = none` models the named
worksheet not existing yet; `open_ws` then creates it and writes the
header row, as `open_ws` in the code does via `add_worksheet` +
`ws.update("A1:D1", ...)`. -/

/-- One worksheet cell: a string or a numeric value. -/
inductive Cell where
  | str : String → Cell
  | num : ℚ → Cell
deriving DecidableEq

/-- The fixed header row `timestamp_utc, current_assets,
current_liabilities, inventory` written to `A1:D1`. -/
def headerRow : List Cell :=
  [Cell.str "timestamp_utc", Cell.str "current_assets",
   Cell.str "current_liabilities", Cell.str "inventory"]

/-- The spreadsheet state: the worksheet's rows, or `none` when the
worksheet does not exist yet. -/
structure Store where
  ws : Option (List (List Cell))
deriving DecidableEq

/-- Overwrite row `i` of the grid (0-based), extending the grid with
empty rows if it is shorter — the semantics of `ws.update` on a row
range. -/
def setRow : List (List Cell) → Nat → List Cell → List (List Cell)
  | [], 0, r => [r]
  | [], i + 1, r => [] :: setRow [] i r
  | _ :: t, 0, r => r :: t
  | a :: t, i + 1, r => a :: setRow t i r

/-- `open_ws`: return the worksheet's rows; if the worksheet is not
found, create it and write the header row (the grid then holds exactly
that one row). Returns the rows together with the store as it is after
the call. -/
def open_ws (st : Store) : List (List Cell) × Store :=
  match st.ws with
  | some rows => (rows, st)
  | none => ([headerRow], ⟨some [headerRow]⟩)

/-- The cell values `write_single_row` puts into `A2:D2`, in column
order. -/
def recordCells (r : Record) : List Cell :=
  [Cell.str r.timestamp_utc, Cell.num r.current_assets,
   Cell.num r.current_liabilities, Cell.num r.inventory]

/-- `write_single_row(record)`: open the worksheet, ensure the header at
row 1, overwrite row 2 with the record's four values. -/
def write_single_row (st : Store) (r : Record) : Store :=
  let rows := (open_ws st).1
  ⟨some (setRow (setRow rows 0 headerRow) 1 (recordCells r))⟩

/-- `read_latest()`: open the worksheet, fetch `A1:D2` (at most the
first two rows, each truncated to four cells, trailing blanks absent —
gspread's `get_values`), and return `None` when the data row is missing
or shorter than four cells, else the data row. The second component is
the store after the call (`open_ws` may have created the worksheet). -/
def read_latest (st : Store) : Option (List Cell) × Store :=
  let rows := (open_ws st).1
  let data := (rows.take 2).map (fun row => row.take 4)
  if data.length < 2 ∨ (data.getD 1 []).length < 4 then (none, (open_ws st).2)
  else (some (data.getD 1 []), (open_ws st).2)

/-! ## The tick

Per rerun tick the page computes `now = time.time()`, and if
`manual or due(now)` generates a record, writes it, and sets
`last_generate_ts = now`. Afterwards it renders a countdown:
`remaining = max(0, INTERVAL_SECONDS - int(elapsed))` and a progress bar
`1.0 - (remaining / INTERVAL_SECONDS) if INTERVAL_SECONDS else 1.0`. -/

/-- Session state plus store: the mutable state one tick acts on. -/
structure AppState where
  last_generate_ts : ℚ
  store : Store

/-- The generation step of one tick (lines `if manual or due(now): ...`):
when the manual button fired or the gate is due, generate a record from
the draws, write it, and set `last_generate_ts` to `now`; otherwise
leave the state unchanged. -/
def tickGenerate (s : AppState) (manual : Bool) (now : ℚ) (ts : String)
    (d : Draws) : AppState :=
  if manual || due now s.last_generate_ts (INTERVAL_SECONDS : ℚ) then
    { last_generate_ts := now
      store := write_single_row s.store (generate_plausible_values ts d) }
  else s

/-- Python `int()` applied to a float: truncation toward zero. -/
def pyInt (q : ℚ) : ℤ := if 0 ≤ q then ⌊q⌋ else ⌈q⌉

/-- `remaining = max(0, INTERVAL_SECONDS - int(elapsed))`. -/
def remaining (elapsed : ℚ) : ℤ := max 0 (INTERVAL_SECONDS - pyInt elapsed)

/-- The progress-bar value:
`1.0 - (remaining / INTERVAL_SECONDS) if INTERVAL_SECONDS else 1.0`. -/
def progress (elapsed : ℚ) : ℚ :=
  if INTERVAL_SECONDS ≠ 0 then
    1 - (remaining elapsed : ℚ) / (INTERVAL_SECONDS : ℚ)
  else 1

/-! ## Claims about the sampler -/

/-- C1: for every random source (all random seeds), the snapshot returned
by `generate_plausible_values` has `current_assets` in
`[50000, 250000]`, `0 < inventory ≤ current_assets`, and
`current_liabilities ≥ 1`. -/
theorem generate_satisfies_invariants (ts : String) (d : Draws)
    (h : ValidDraws d) :
    50000 ≤ (generate_plausible_values ts d).current_assets ∧
    (generate_plausible_values ts d).current_assets ≤ 250000 ∧
    0 < (generate_plausible_values ts d).inventory ∧
    (generate_plausible_values ts d).inventory ≤
      (generate_plausible_values ts d).current_assets ∧
    1 ≤ (generate_plausible_values ts d).current_liabilities := by
  obtain ⟨-, hinv_lo, -, hcl_lo, -⟩ := h
  have hca_lo := clipped_ca_lower d
  have hca_hi := clipped_ca_upper d
  refine ⟨?_, ?_, ?_, ?_, ?_⟩
  · have h1 : ((5000000 : ℤ) : ℚ) / 100 ≤ clipped_ca d := by
      push_cast
      linarith
    have h2 := le_round2 h1
    show (50000 : ℚ) ≤ round2 (clipped_ca d)
    push_cast at h2
    linarith
  · have h1 : clipped_ca d ≤ ((25000000 : ℤ) : ℚ) / 100 := by
      push_cast
      linarith
    have h2 := round2_le h1
    show round2 (clipped_ca d) ≤ (250000 : ℚ)
    push_cast at h2
    linarith
  · have hpre : (5000 : ℚ) ≤ pre_cap_inv d := by
      unfold pre_cap_inv
      have := mul_le_mul hinv_lo hca_lo (by norm_num) (by linarith)
      linarith
    have hcap : (5000 : ℚ) ≤ capped_inv d := by
      unfold capped_inv
      exact le_min hpre (by linarith)
    have h1 : ((500000 : ℤ) : ℚ) / 100 ≤ capped_inv d := by
      push_cast
      linarith
    have h2 := le_round2 h1
    show (0 : ℚ) < round2 (capped_inv d)
    push_cast at h2
    linarith
  · show round2 (capped_inv d) ≤ round2 (clipped_ca d)
    exact round2_mono (min_le_right _ _)
  · have hfl : (1 : ℚ) ≤ floored_cl d := le_max_right _ _
    have h1 : ((100 : ℤ) : ℚ) / 100 ≤ floored_cl d := by
      push_cast
      linarith
    have h2 := le_round2 h1
    show (1 : ℚ) ≤ round2 (floored_cl d)
    push_cast at h2
    linarith

/-- Witness for C1 at a concrete draw. -/
theorem generate_satisfies_invariants_witness :
    ValidDraws ⟨59874, 1/4, 1/2⟩ ∧
    (50000 ≤ (generate_plausible_values "t" ⟨59874, 1/4, 1/2⟩).current_assets ∧
     (generate_plausible_values "t" ⟨59874, 1/4, 1/2⟩).current_assets ≤ 250000 ∧
     0 < (generate_plausible_values "t" ⟨59874, 1/4, 1/2⟩).inventory ∧
     (generate_plausible_values "t" ⟨59874, 1/4, 1/2⟩).inventory ≤
       (generate_plausible_values "t" ⟨59874, 1/4, 1/2⟩).current_assets ∧
     1 ≤ (generate_plausible_values "t" ⟨59874, 1/4, 1/2⟩).current_liabilities) :=
  ⟨by norm_num [ValidDraws],
   generate_satisfies_invariants "t" ⟨59874, 1/4, 1/2⟩ (by norm_num [ValidDraws])⟩

/-- C5: every monetary field of a generated snapshot is a multiple of
1/100, i.e. has at most 2 decimal digits. -/
theorem generate_fields_two_decimals (ts : String) (d : Draws) :
    (∃ n : ℤ, (generate_plausible_values ts d).current_assets * 100 = n) ∧
    (∃ n : ℤ, (generate_plausible_values ts d).current_liabilities * 100 = n) ∧
    (∃ n : ℤ, (generate_plausible_values ts d).inventory * 100 = n) :=
  ⟨⟨rhe (clipped_ca d * 100), round2_mul_hundred _⟩,
   ⟨rhe (floored_cl d * 100), round2_mul_hundred _⟩,
   ⟨rhe (capped_inv d * 100), round2_mul_hundred _⟩⟩

/-- C7: whatever the draws are — even an inventory proportion above the
stated range, such as 0.80 — the final inventory is at most
`current_assets`, and the cap `min(inv, ca)` can only decrease the
inventory, never raise it. -/
theorem inventory_cap_bounds (ts : String) (d : Draws) :
    (generate_plausible_values ts d).inventory ≤
      (generate_plausible_values ts d).current_assets ∧
    capped_inv d ≤ pre_cap_inv d :=
  ⟨round2_mono (min_le_right _ _), min_le_left _ _⟩

/-- C10: for draws in the ranges the code's own `uniform` calls produce,
the two final clamps are no-ops: `min(inv, ca)` returns `inv` and
`max(cl, 1.0)` returns `cl` unchanged. -/
theorem final_clamps_are_noops (d : Draws)
    (h1 : 0.10 ≤ d.invPropDraw) (h2 : d.invPropDraw < 0.60)
    (h3 : 0.30 ≤ d.clPropDraw) (h4 : d.clPropDraw < 1.10) :
    capped_inv d = pre_cap_inv d ∧ floored_cl d = pre_floor_cl d := by
  have hca_lo := clipped_ca_lower d
  constructor
  · unfold capped_inv
    apply min_eq_left
    unfold pre_cap_inv
    have := mul_le_mul (le_of_lt h2) (le_refl (clipped_ca d))
      (by linarith) (by norm_num)
    nlinarith
  · unfold floored_cl
    apply max_eq_left
    unfold pre_floor_cl
    have := mul_le_mul h3 hca_lo (by norm_num) (by linarith)
    linarith

/-- Witness for C10 at a concrete draw. -/
theorem final_clamps_are_noops_witness :
    ((0.10 : ℚ) ≤ 1/4 ∧ (1/4 : ℚ) < 0.60 ∧
     (0.30 : ℚ) ≤ 1/2 ∧ (1/2 : ℚ) < 1.10) ∧
    (capped_inv ⟨59874, 1/4, 1/2⟩ = pre_cap_inv ⟨59874, 1/4, 1/2⟩ ∧
     floored_cl ⟨59874, 1/4, 1/2⟩ = pre_floor_cl ⟨59874, 1/4, 1/2⟩) :=
  ⟨by norm_num,
   final_clamps_are_noops ⟨59874, 1/4, 1/2⟩ (by norm_num) (by norm_num)
     (by norm_num) (by norm_num)⟩

/-! ## Claims about the timing gate and the tick -/

/-- C2: `due` is true iff `now - last ≥ interval`; at the exact boundary
it is true; with the shipped 30-second interval, `last = 0, now = 30`
gives true and `last = 100, now = 120` gives false. -/
theorem due_iff_interval_elapsed :
    (∀ now last interval : ℚ,
      due now last interval = true ↔ now - last ≥ interval) ∧
    (∀ now last : ℚ, now - last = (INTERVAL_SECONDS : ℚ) →
      due now last (INTERVAL_SECONDS : ℚ) = true) ∧
    due 30 0 (INTERVAL_SECONDS : ℚ) = true ∧
    due 120 100 (INTERVAL_SECONDS : ℚ) = false := by
  refine ⟨fun now last interval => ?_, fun now last h => ?_, ?_, ?_⟩
  · simp [due]
  · simp [due, h]
  · norm_num [due, INTERVAL_SECONDS]
  · norm_num [due, INTERVAL_SECONDS]

/-- Witness for C2's boundary clause at concrete times. -/
theorem due_iff_interval_elapsed_witness :
    (45 : ℚ) - 15 = (INTERVAL_SECONDS : ℚ) ∧
    due 45 15 (INTERVAL_SECONDS : ℚ) = true :=
  ⟨by norm_num [INTERVAL_SECONDS],
   due_iff_interval_elapsed.2.1 45 15 (by norm_num [INTERVAL_SECONDS])⟩

/-- C6: if the manual trigger fired, the tick generates and writes a new
snapshot whatever the elapsed time; and on every generation path (manual
or due) `last_generate_ts` becomes `now` after the write. -/
theorem manual_trigger_forces_generation (s : AppState) (manual : Bool)
    (now : ℚ) (ts : String) (d : Draws) :
    (manual = true →
      tickGenerate s manual now ts d =
        { last_generate_ts := now
          store := write_single_row s.store (generate_plausible_values ts d) }) ∧
    ((manual = true ∨
        due now s.last_generate_ts (INTERVAL_SECONDS : ℚ) = true) →
      (tickGenerate s manual now ts d).last_generate_ts = now) := by
  constructor
  · intro hm
    simp [tickGenerate, hm]
  · intro hgen
    rcases hgen with hm | hd
    · simp [tickGenerate, hm]
    · simp [tickGenerate, hd]

/-- Witness for C6: a manual tick at time 5 on a fresh store. -/
theorem manual_trigger_forces_generation_witness :
    ((true : Bool) = true →
      tickGenerate ⟨0, ⟨none⟩⟩ true 5 "t" ⟨59874, 1/4, 1/2⟩ =
        { last_generate_ts := 5
          store := write_single_row (Store.mk none)
            (generate_plausible_values "t" ⟨59874, 1/4, 1/2⟩) }) ∧
    (tickGenerate ⟨0, ⟨none⟩⟩ true 5 "t" ⟨59874, 1/4, 1/2⟩).last_generate_ts
      = 5 :=
  ⟨(manual_trigger_forces_generation ⟨0, ⟨none⟩⟩ true 5 "t"
      ⟨59874, 1/4, 1/2⟩).1,
   (manual_trigger_forces_generation ⟨0, ⟨none⟩⟩ true 5 "t"
      ⟨59874, 1/4, 1/2⟩).2 (Or.inl rfl)⟩

/-- C9: the rendered progress value equals
`1 - remaining / INTERVAL_SECONDS` for every elapsed time. -/
theorem progress_eq_one_sub_remaining_ratio (elapsed : ℚ) :
    progress elapsed = 1 - (remaining elapsed : ℚ) / (INTERVAL_SECONDS : ℚ) := by
  norm_num [progress, INTERVAL_SECONDS]

/-! ## Claims about the store adapter -/

/-- C3: writing a snapshot and then reading back yields the snapshot's
four field values, in the fixed column order. -/
theorem write_then_read_roundtrip (st : Store) (r : Record) :
    (read_latest (write_single_row st r)).1 =
      some [Cell.str r.timestamp_utc, Cell.num r.current_assets,
            Cell.num r.current_liabilities, Cell.num r.inventory] := by
  obtain ⟨ws⟩ := st
  rcases ws with _ | rows
  · simp [read_latest, write_single_row, open_ws, setRow, recordCells,
      headerRow]
  · rcases rows with _ | ⟨a, _ | ⟨b, t⟩⟩ <;>
      simp [read_latest, write_single_row, open_ws, setRow, recordCells,
        headerRow]

/-- C4: `read_latest` answers `none` — and not an error — exactly when
the worksheet has no second row or the second row has fewer than four
cells; in particular it answers `none` on a header-only worksheet. -/
theorem read_latest_absent_iff (st : Store) :
    ((read_latest st).1 = none ↔
      (open_ws st).1.length < 2 ∨ ((open_ws st).1.getD 1 []).length < 4) ∧
    (read_latest ⟨some [headerRow]⟩).1 = none := by
  constructor
  · obtain ⟨ws⟩ := st
    rcases ws with _ | rows
    · simp [read_latest, open_ws, headerRow]
    · rcases rows with _ | ⟨a, _ | ⟨b, t⟩⟩
      · simp [read_latest, open_ws]
      · simp [read_latest, open_ws]
      · simp [read_latest, open_ws, List.length_take]
        split_ifs with hb <;> simp [hb]
  · simp [read_latest, open_ws, headerRow]

/-- `read_latest` leaves the store exactly as `open_ws` left it, in both
branches of the length check. -/
theorem read_latest_store_eq (st : Store) :
    (read_latest st).2 = (open_ws st).2 := by
  simp only [read_latest]
  split <;> rfl

/-- C8: two `read_latest` calls with no write in between return the same
result and leave the store where the first call left it. -/
theorem read_latest_idempotent (st : Store) :
    (read_latest (read_latest st).2).1 = (read_latest st).1 ∧
    (read_latest (read_latest st).2).2 = (read_latest st).2 := by
  obtain ⟨ws⟩ := st
  rcases ws with _ | rows <;> rw [read_latest_store_eq] <;>
    exact ⟨rfl, read_latest_store_eq _⟩
